import Mathlib

/-!
Shallow embedding of the todo-app client reconciliation logic
(`src/App.tsx`, components `App` and `TodoItem`).

The React component state relevant to the specified behaviour is modelled
as an explicit record (`AppState`); each reconciliation operation becomes a
pure function from the pre-state and the outcomes of its remote calls to a
result (`OpResult`) holding the post-state, the list of remote calls the
operation issued, and whether an exception escaped the operation boundary.
Transient presentation-only flags (`deleteAll`, `changeAll` overlay markers,
input focus) are not modelled; `lockInput`, `tempTodo`, `inputValue` and the
error slot are.

For the bulk operations (`handleDeleteAll`, `handleToggleAll`) the source
issues one call per item via `Promise.allSettled` and each callback performs
a single atomic read-modify-write of the shared working copy after its await
settles; the per-item mutations commute (filters by distinct ids, and
identical idempotent maps), so the fan-out is modelled as a left-to-right
fold over the item list, with the outcome of each item's call supplied by an
`ok : Nat → Bool` oracle keyed by the item's id.
-/

namespace TodoApp

/-- A persisted todo record, mirroring the `Todo` wire shape
`\x7b id, title, completed \x7d` (the opaque owner association is not modelled). -/
structure Todo where
  id : Nat
  title : String
  completed : Bool
deriving DecidableEq, Repr

/-- Model of the JavaScript `String.prototype.trim()` used by the source:
strip leading and trailing whitespace. Implemented structurally on the
character list so it is kernel-computable. -/
def jsTrim (s : String) : String :=
  ⟨((s.data.dropWhile Char.isWhitespace).reverse.dropWhile Char.isWhitespace).reverse⟩

/-- A `Partial<Todo>` update payload as built by `handleChangeTodo`. -/
structure TodoUpdate where
  completed : Option Bool
  title : Option String
deriving DecidableEq, Repr

/-- A remote call issued through the store client
(`getTodos` / `postTodo` / `patchTodo` / `deleteTodo`). -/
inductive RemoteCall where
  | getAll : RemoteCall
  | post : String → RemoteCall
  | patch : Nat → TodoUpdate → RemoteCall
  | delete : Nat → RemoteCall
deriving DecidableEq, Repr

/-- The `App` component state relevant to reconciliation:
`todosFromServer`, `inputValue`, `tempTodo`, `lockInput`, `errorMessage`. -/
structure AppState where
  todosFromServer : List Todo
  inputValue : String
  tempTodo : Option String
  lockInput : Bool
  errorMessage : Option String
deriving DecidableEq, Repr

/-- The observable result of running one reconciliation operation:
the post-state, the remote calls issued (in issue order), and whether a
rejection escaped the operation to its caller. -/
structure OpResult where
  state : AppState
  calls : List RemoteCall
  raised : Bool
deriving Repr

/-- The `loadTodos` operation: `getTodos()`; on success replace the list,
on failure set the load-failure message. It never clears the error slot. -/
def loadTodos (s : AppState) (result : Except Unit (List Todo)) : OpResult :=
  match result with
  | .ok todos => ⟨{ s with todosFromServer := todos }, [.getAll], false⟩
  | .error _ => ⟨{ s with errorMessage := some "Unable to load todos" }, [.getAll], false⟩

/-- The `handleDeleteTodo` operation: clear the error slot, lock input,
`deleteTodo(id)`; on success drop entries with that id, on failure set the
delete-failure message; finally unlock input. `ok` is the call's outcome. -/
def handleDeleteTodo (s : AppState) (id : Nat) (ok : Bool) : OpResult :=
  let s1 := { s with errorMessage := none, lockInput := true }
  let s2 :=
    if ok then
      { s1 with todosFromServer := s1.todosFromServer.filter (fun t => t.id != id) }
    else
      { s1 with errorMessage := some "Unable to delete a todo" }
  ⟨{ s2 with lockInput := false }, [.delete id], false⟩

/-- The `handlePostTodo` operation: trim the input, clear the error slot;
if the trimmed title is empty set the title-required message and stop with
no remote call; otherwise lock input, set the pending placeholder, call
`postTodo(title)`; on success append the returned todo and clear the input,
on failure set the add-failure message; finally unlock and clear the
placeholder. -/
def handlePostTodo (s : AppState) (result : Except Unit Todo) : OpResult :=
  let preparedInputValue := jsTrim s.inputValue
  let s1 := { s with errorMessage := none }
  if preparedInputValue.length = 0 then
    ⟨{ s1 with errorMessage := some "Title should not be empty" }, [], false⟩
  else
    let s2 := { s1 with lockInput := true, tempTodo := some preparedInputValue }
    let s3 :=
      match result with
      | .ok newPost =>
          { s2 with
            todosFromServer := s2.todosFromServer ++ [newPost]
            inputValue := "" }
      | .error _ => { s2 with errorMessage := some "Unable to add a todo" }
    ⟨{ s3 with lockInput := false, tempTodo := none }, [.post preparedInputValue], false⟩

/-- The `data: boolean | string` argument of `handleChangeTodo`. -/
inductive ChangeData where
  | ofBool : Bool → ChangeData
  | ofString : String → ChangeData
deriving DecidableEq, Repr

/-- Outcome of the `patchTodo` call inside `handleChangeTodo`: fulfilled,
rejected with an `Error` instance, or rejected with a non-`Error` value. -/
inductive PatchOutcome where
  | ok : PatchOutcome
  | failError : PatchOutcome
  | failNonError : PatchOutcome
deriving DecidableEq, Repr

/-- The update payload `handleChangeTodo` builds from its argument:
a boolean sets `completed`, a string sets `title` to its trimmed value. -/
def changeUpdateData : ChangeData → TodoUpdate
  | .ofBool b => { completed := some b, title := none }
  | .ofString str => { completed := none, title := some (jsTrim str) }

/-- Spreading an update payload over a todo (`\x7b ...todo, ...updateData \x7d`). -/
def applyUpdateData (u : TodoUpdate) (t : Todo) : Todo :=
  { t with
    completed := u.completed.getD t.completed
    title := u.title.getD t.title }

/-- The `handleChangeTodo` operation: build the payload, `patchTodo(id, payload)`;
on success merge the payload into the matching entry; on rejection with an
`Error` set the update-failure message and re-throw; on rejection with a
non-`Error` value do nothing. The error slot is never cleared here. -/
def handleChangeTodo (s : AppState) (id : Nat) (data : ChangeData)
    (out : PatchOutcome) : OpResult :=
  let updateData := changeUpdateData data
  match out with
  | .ok =>
      ⟨{ s with
          todosFromServer := s.todosFromServer.map (fun todo =>
            if todo.id == id then applyUpdateData updateData todo else todo) },
        [.patch id updateData], false⟩
  | .failError =>
      ⟨{ s with errorMessage := some "Unable to update a todo" },
        [.patch id updateData], true⟩
  | .failNonError => ⟨s, [.patch id updateData], false⟩

/-- The per-item loop body of `handleDeleteAll`, folded left-to-right over
the snapshot: for each completed item issue `deleteTodo(id)`; on success
filter that id out of the working copy, on failure set the delete-failure
message. Non-completed items are skipped entirely. -/
def deleteAllGo (ok : Nat → Bool) :
    List Todo → List Todo → Option String → List RemoteCall →
    List Todo × Option String × List RemoteCall
  | [], updated, err, calls => (updated, err, calls)
  | t :: rest, updated, err, calls =>
    if t.completed then
      if ok t.id then
        deleteAllGo ok rest (updated.filter (fun item => item.id != t.id)) err
          (calls ++ [.delete t.id])
      else
        deleteAllGo ok rest updated (some "Unable to delete a todo")
          (calls ++ [.delete t.id])
    else
      deleteAllGo ok rest updated err calls

/-- The `handleDeleteAll` operation (clear completed): clear the error slot,
snapshot the list, run the fan-out of `deleteTodo` calls over completed
items, then replace the list with the working copy. -/
def handleDeleteAll (s : AppState) (ok : Nat → Bool) : OpResult :=
  let s1 := { s with errorMessage := none }
  let r := deleteAllGo ok s1.todosFromServer s1.todosFromServer s1.errorMessage []
  ⟨{ s1 with todosFromServer := r.1, errorMessage := r.2.1 }, r.2.2, false⟩

/-- The reconciliation map applied to every entry of the working copy after
one item's call succeeds in `handleToggleAll`; `itemCompleted` is the
`completed` flag of the item whose call settled, captured by the callback. -/
def toggleMapFn (allCompleted itemCompleted : Bool) (todo : Todo) : Todo :=
  if allCompleted then { todo with completed := false }
  else if !allCompleted && !itemCompleted then { todo with completed := true }
  else todo

/-- The per-item loop body of `handleToggleAll`, folded left-to-right over
the snapshot. For each item: if `allCompleted`, issue `patchTodo(id,
completed:false)`; if the item is not completed, issue `patchTodo(id,
completed:true)` (for items of the snapshot the two cases are mutually
exclusive, and the one issued call's outcome is `ok id`). On success map
`toggleMapFn` over the whole working copy; on failure set the (delete!)
failure message and leave the working copy alone. Items needing no call
still apply the map, which is then the identity. -/
def toggleAllGo (allCompleted : Bool) (ok : Nat → Bool) :
    List Todo → List Todo → Option String → List RemoteCall →
    List Todo × Option String × List RemoteCall
  | [], updated, err, calls => (updated, err, calls)
  | t :: rest, updated, err, calls =>
    let itemCalls :=
      (if allCompleted then [RemoteCall.patch t.id ⟨some false, none⟩] else []) ++
      (if !t.completed then [RemoteCall.patch t.id ⟨some true, none⟩] else [])
    if allCompleted || !t.completed then
      if ok t.id then
        toggleAllGo allCompleted ok rest (updated.map (toggleMapFn allCompleted t.completed))
          err (calls ++ itemCalls)
      else
        toggleAllGo allCompleted ok rest updated (some "Unable to delete a todo")
          (calls ++ itemCalls)
    else
      toggleAllGo allCompleted ok rest (updated.map (toggleMapFn allCompleted t.completed))
        err calls

/-- The `handleToggleAll` operation: compute `allCompleted` once from the
state observed at invocation (`completedTodos.length === todosFromServer.length`),
run the fan-out of `patchTodo` calls, then replace the list with the working
copy. The error slot is never cleared here. -/
def handleToggleAll (s : AppState) (ok : Nat → Bool) : OpResult :=
  let allCompleted :=
    (s.todosFromServer.filter (fun t => t.completed)).length == s.todosFromServer.length
  let r := toggleAllGo allCompleted ok s.todosFromServer s.todosFromServer s.errorMessage []
  ⟨{ s with todosFromServer := r.1, errorMessage := r.2.1 }, r.2.2, false⟩

/-- What the `TodoItem` edit-commit handler decides to do. -/
inductive EditAction where
  | deleteItem : Nat → EditAction
  | changeTitle : Nat → String → EditAction
  | closeEdit : EditAction
deriving DecidableEq, Repr

/-- The `handleTitleChange` handler of `TodoItem`: if the (untrimmed) input
text is falsy — i.e. the empty string — delete the item; if it equals the
current title, just close the editor; otherwise send it to
`changeTodo(id, inputValue)`. -/
def handleTitleChange (id : Nat) (title inputValue : String) : EditAction :=
  if inputValue = "" then .deleteItem id
  else if inputValue = title then .closeEdit
  else .changeTitle id inputValue

end TodoApp

namespace TodoApp

theorem deleteAllGo_updated (ok : Nat → Bool) (l : List Todo) :
    ∀ (updated : List Todo) (err : Option String) (calls : List RemoteCall),
      (deleteAllGo ok l updated err calls).1
        = updated.filter
            (fun x => !(l.any (fun t => t.completed && ok t.id && x.id == t.id))) := by
  induction l with
  | nil => intro updated err calls; simp [deleteAllGo]
  | cons t rest ih =>
    intro updated err calls
    by_cases hc : t.completed
    · by_cases ho : ok t.id
      · rw [deleteAllGo]
        simp only [hc, ho, if_true]
        rw [ih, List.filter_filter]
        apply List.filter_congr
        intro x hx
        cases hany : rest.any (fun u => u.completed && ok u.id && x.id == u.id) <;>
          cases hid : x.id == t.id <;>
            simp [List.any_cons, hc, ho, hany, hid, bne]
      · rw [deleteAllGo]
        simp only [hc, ho, if_true, if_false, Bool.false_eq_true]
        rw [ih]
        apply List.filter_congr
        intro x hx
        cases hany : rest.any (fun u => u.completed && ok u.id && x.id == u.id) <;>
          simp [List.any_cons, hc, ho, hany]
    · rw [deleteAllGo]
      simp only [hc, if_false, Bool.false_eq_true]
      rw [ih]
      apply List.filter_congr
      intro x hx
      cases hany : rest.any (fun u => u.completed && ok u.id && x.id == u.id) <;>
        simp [List.any_cons, hc, hany]

theorem deleteAllGo_err (ok : Nat → Bool) (l : List Todo) :
    ∀ (updated : List Todo) (err : Option String) (calls : List RemoteCall),
      (deleteAllGo ok l updated err calls).2.1
        = if l.any (fun t => t.completed && !ok t.id)
          then some "Unable to delete a todo" else err := by
  induction l with
  | nil => intro updated err calls; simp [deleteAllGo]
  | cons t rest ih =>
    intro updated err calls
    by_cases hc : t.completed
    · by_cases ho : ok t.id
      · rw [deleteAllGo]
        simp only [hc, ho, if_true]
        rw [ih]
        simp [List.any_cons, hc, ho]
      · rw [deleteAllGo]
        simp only [hc, ho, if_true, if_false, Bool.false_eq_true]
        rw [ih]
        have : (t.completed && !ok t.id) = true := by simp [hc, ho]
        simp [List.any_cons, this]
    · rw [deleteAllGo]
      simp only [hc, if_false, Bool.false_eq_true]
      rw [ih]
      simp [List.any_cons, hc]

end TodoApp

namespace TodoApp

/-- C1: bulk delete (clear completed). For every starting list (with the
data-model invariant of unique ids) and every outcome oracle, the final
Todo Collection State is the original list minus exactly the completed
items whose delete call succeeded: it never contains an item whose delete
succeeded and never drops an item whose delete failed; and the Error Slot
is set if and only if some completed item's delete call failed. -/
theorem spec_c1_bulk_delete_partial_failure (s : AppState) (ok : Nat → Bool)
    (hids : (s.todosFromServer.map (fun t => t.id)).Nodup) :
    (handleDeleteAll s ok).state.todosFromServer
      = s.todosFromServer.filter (fun t => !(t.completed && ok t.id))
    ∧ (∀ t ∈ s.todosFromServer,
        t ∈ (handleDeleteAll s ok).state.todosFromServer
          ↔ ¬(t.completed = true ∧ ok t.id = true))
    ∧ ((handleDeleteAll s ok).state.errorMessage ≠ none
        ↔ ∃ t ∈ s.todosFromServer, t.completed = true ∧ ok t.id = false) := by
  have hupd : (handleDeleteAll s ok).state.todosFromServer
      = s.todosFromServer.filter (fun t => !(t.completed && ok t.id)) := by
    show (deleteAllGo ok s.todosFromServer s.todosFromServer none []).1 = _
    rw [deleteAllGo_updated]
    apply List.filter_congr
    intro x hx
    congr 1
    cases hcx : x.completed && ok x.id
    · apply List.any_eq_false.mpr
      intro u hu hPu
      simp only [Bool.and_eq_true, beq_iff_eq] at hPu
      obtain ⟨⟨hu1, hu2⟩, hu3⟩ := hPu
      have hux : u = x := List.inj_on_of_nodup_map hids hu hx hu3.symm
      rw [hux] at hu1 hu2
      simp [hu1, hu2] at hcx
    · apply List.any_eq_true.mpr
      exact ⟨x, hx, by simp [Bool.and_eq_true] at hcx ⊢; exact hcx⟩
  have herr : (handleDeleteAll s ok).state.errorMessage
      = if s.todosFromServer.any (fun t => t.completed && !ok t.id)
        then some "Unable to delete a todo" else none := by
    show (deleteAllGo ok s.todosFromServer s.todosFromServer none []).2.1 = _
    rw [deleteAllGo_err]
  have hany : s.todosFromServer.any (fun t => t.completed && !ok t.id) = true
      ↔ ∃ t ∈ s.todosFromServer, t.completed = true ∧ ok t.id = false := by
    simp [List.any_eq_true, Bool.and_eq_true, Bool.not_eq_true']
  refine ⟨hupd, ?_, ?_⟩
  · intro t ht
    rw [hupd]
    simp only [List.mem_filter, ht, true_and, Bool.not_eq_true', Bool.and_eq_true]
    constructor
    · intro h hcontra
      rw [hcontra.1, hcontra.2] at h
      simp at h
    · intro h
      cases hc : t.completed <;> cases ho : ok t.id <;> simp_all
  · rw [herr, ← hany]
    cases h : s.todosFromServer.any (fun t => t.completed && !ok t.id) <;> simp

/-- C1 witness: a concrete run of bulk delete with two completed items of
which one delete call fails. -/
theorem spec_c1_witness :
    ((([⟨1, "a", true⟩, ⟨2, "b", true⟩, ⟨3, "c", false⟩] : List Todo).map
        (fun t => t.id)).Nodup)
    ∧ ((handleDeleteAll ⟨[⟨1, "a", true⟩, ⟨2, "b", true⟩, ⟨3, "c", false⟩],
          "", none, false, none⟩ (fun n => n == 2)).state.todosFromServer
        = ([⟨1, "a", true⟩, ⟨2, "b", true⟩, ⟨3, "c", false⟩] : List Todo).filter
            (fun t => !(t.completed && (fun n : Nat => n == 2) t.id))) :=
  ⟨by decide,
    (spec_c1_bulk_delete_partial_failure
      ⟨[⟨1, "a", true⟩, ⟨2, "b", true⟩, ⟨3, "c", false⟩], "", none, false, none⟩
      (fun n => n == 2) (by decide)).1⟩

/-- C9: delete-one. If `remove(id)` succeeds the new Todo Collection State
is the old one with exactly the entry of that id removed (under the unique-id
invariant) and every other entry unchanged; if it fails the list is identical
to before and the Error Slot holds the delete-failure message. -/
theorem spec_c9_delete_one (s : AppState) (id : Nat) :
    (handleDeleteTodo s id true).state.todosFromServer
      = s.todosFromServer.filter (fun t => t.id != id)
    ∧ ((s.todosFromServer.map (fun t => t.id)).Nodup →
        ∀ l₁ t l₂, s.todosFromServer = l₁ ++ t :: l₂ → t.id = id →
          (handleDeleteTodo s id true).state.todosFromServer = l₁ ++ l₂)
    ∧ (handleDeleteTodo s id false).state.todosFromServer = s.todosFromServer
    ∧ (handleDeleteTodo s id false).state.errorMessage
        = some "Unable to delete a todo" := by
  refine ⟨rfl, ?_, rfl, rfl⟩
  intro hids l₁ t l₂ hsplit hid
  show s.todosFromServer.filter (fun u => u.id != id) = l₁ ++ l₂
  subst hid
  rw [hsplit] at hids ⊢
  rw [List.map_append, List.map_cons] at hids
  rw [List.nodup_append] at hids
  obtain ⟨h₁, h₂, hdisj⟩ := hids
  rw [List.filter_append, List.filter_cons]
  have ht : (t.id != t.id) = false := by simp
  rw [ht]
  have hl₁ : l₁.filter (fun u => u.id != t.id) = l₁ := by
    apply List.filter_eq_self.mpr
    intro u hu
    have : u.id ≠ t.id := by
      intro hcontra
      exact hdisj (List.mem_map_of_mem _ hu) (by simp [hcontra])
    simp [this]
  have hl₂ : l₂.filter (fun u => u.id != t.id) = l₂ := by
    apply List.filter_eq_self.mpr
    intro u hu
    have htid : t.id ∉ l₂.map (fun v => v.id) := by
      intro hcontra
      exact (List.nodup_cons.mp h₂).1 hcontra
    have : u.id ≠ t.id := by
      intro hcontra
      exact htid (hcontra ▸ List.mem_map_of_mem _ hu)
    simp [this]
  simp [hl₁, hl₂]

/-- C9 witness: a concrete delete of id 2 from a two-element list. -/
theorem spec_c9_witness :
    ((([⟨1, "a", false⟩, ⟨2, "b", true⟩] : List Todo).map (fun t => t.id)).Nodup)
    ∧ ((handleDeleteTodo ⟨[⟨1, "a", false⟩, ⟨2, "b", true⟩], "", none, false, none⟩
          2 true).state.todosFromServer = ([⟨1, "a", false⟩] : List Todo) ++ []) :=
  ⟨by decide,
    (spec_c9_delete_one
        ⟨[⟨1, "a", false⟩, ⟨2, "b", true⟩], "", none, false, none⟩ 2).2.1
      (by decide) [⟨1, "a", false⟩] ⟨2, "b", true⟩ [] rfl rfl⟩

end TodoApp

namespace TodoApp

theorem toggleMapFn_true (c : Bool) :
    toggleMapFn true c = fun todo => { todo with completed := false } := by
  funext todo; simp [toggleMapFn]

theorem toggleMapFn_false_true :
    toggleMapFn false true = fun todo => todo := by
  funext todo; simp [toggleMapFn]

theorem toggleMapFn_false_false :
    toggleMapFn false false = fun todo => { todo with completed := true } := by
  funext todo; simp [toggleMapFn]

theorem toggleAllGo_err (b : Bool) (ok : Nat → Bool) (l : List Todo) :
    ∀ (updated : List Todo) (err : Option String) (calls : List RemoteCall),
      (toggleAllGo b ok l updated err calls).2.1
        = if l.any (fun t => (b || !t.completed) && !ok t.id)
          then some "Unable to delete a todo" else err := by
  induction l with
  | nil => intro updated err calls; simp [toggleAllGo]
  | cons t rest ih =>
    intro updated err calls
    by_cases hcall : (b || !t.completed) = true
    · by_cases ho : ok t.id
      · rw [toggleAllGo]
        simp only [hcall, ho, if_true]
        rw [ih]
        simp [List.any_cons, hcall, ho]
      · have ho' : ok t.id = false := by simpa using ho
        rw [toggleAllGo]
        simp only [hcall, ho', if_true, Bool.false_eq_true, if_false]
        rw [ih]
        have hhd : ((b || !t.completed) && !ok t.id) = true := by simp [hcall, ho']
        simp [List.any_cons, hhd]
    · rw [toggleAllGo]
      simp only [hcall, Bool.false_eq_true, if_false]
      rw [ih]
      have hhd : ((b || !t.completed) && !ok t.id) = false := by
        simp only [Bool.and_eq_false_iff]
        left
        simpa using hcall
      simp [List.any_cons, hhd]

theorem toggleAllGo_true_updated (ok : Nat → Bool) (l : List Todo) :
    (∀ t ∈ l, ok t.id = true) →
    ∀ (updated : List Todo) (err : Option String) (calls : List RemoteCall),
      (toggleAllGo true ok l updated err calls).1
        = (if l.isEmpty then updated
           else updated.map (fun todo => { todo with completed := false })) := by
  induction l with
  | nil => intro _ updated err calls; simp [toggleAllGo]
  | cons t rest ih =>
    intro hok updated err calls
    have hot : ok t.id = true := hok t (by simp)
    rw [toggleAllGo]
    simp only [Bool.true_or, if_true, hot, toggleMapFn_true]
    rw [ih (fun u hu => hok u (by simp [hu]))]
    cases rest with
    | nil => simp
    | cons r rs =>
      simp only [List.isEmpty_cons, Bool.false_eq_true, if_false, List.map_map]
      apply List.map_congr_left
      intro x _
      rfl

theorem toggleAllGo_false_updated (ok : Nat → Bool) (l : List Todo) :
    (∀ t ∈ l, ok t.id = true) →
    ∀ (updated : List Todo) (err : Option String) (calls : List RemoteCall),
      (toggleAllGo false ok l updated err calls).1
        = (if l.any (fun t => !t.completed)
           then updated.map (fun todo => { todo with completed := true })
           else updated) := by
  induction l with
  | nil => intro _ updated err calls; simp [toggleAllGo]
  | cons t rest ih =>
    intro hok updated err calls
    have ih' := ih (fun u hu => hok u (by simp [hu]))
    by_cases hct : t.completed
    · rw [toggleAllGo]
      simp only [hct, Bool.not_true, Bool.or_false, Bool.false_eq_true, if_false,
        toggleMapFn_false_true, List.map_id'']
      rw [ih']
      simp [List.any_cons, hct]
    · have hct' : t.completed = false := by simpa using hct
      have hot : ok t.id = true := hok t (by simp)
      rw [toggleAllGo]
      simp only [hct', Bool.not_false, Bool.or_true, if_true, hot,
        toggleMapFn_false_false]
      rw [ih']
      have hconsany : ((t :: rest).any (fun u => !u.completed)) = true := by
        simp [List.any_cons, hct']
      rw [hconsany]
      simp only [if_true]
      cases h : rest.any (fun u => !u.completed)
      · simp [h]
      · simp only [h, if_true, List.map_map]
        apply List.map_congr_left
        intro x _
        rfl

theorem toggleAllGo_true_calls (ok : Nat → Bool) (l : List Todo) :
    (∀ t ∈ l, t.completed = true) →
    ∀ (updated : List Todo) (err : Option String) (calls : List RemoteCall),
      (toggleAllGo true ok l updated err calls).2.2
        = calls ++ l.map (fun t => RemoteCall.patch t.id ⟨some false, none⟩) := by
  induction l with
  | nil => intro _ updated err calls; simp [toggleAllGo]
  | cons t rest ih =>
    intro hcomp updated err calls
    have hct : t.completed = true := hcomp t (by simp)
    have ih' := ih (fun u hu => hcomp u (by simp [hu]))
    rw [toggleAllGo]
    simp only [Bool.true_or, if_true, hct, Bool.not_true, Bool.false_eq_true,
      if_false, List.append_nil]
    by_cases ho : ok t.id
    · simp only [ho, if_true]
      rw [ih']
      simp [List.append_assoc]
    · have ho' : ok t.id = false := by simpa using ho
      simp only [ho', Bool.false_eq_true, if_false]
      rw [ih']
      simp [List.append_assoc]

theorem toggleAllGo_false_calls (ok : Nat → Bool) (l : List Todo) :
    ∀ (updated : List Todo) (err : Option String) (calls : List RemoteCall),
      (toggleAllGo false ok l updated err calls).2.2
        = calls ++ (l.filter (fun t => !t.completed)).map
            (fun t => RemoteCall.patch t.id ⟨some true, none⟩) := by
  induction l with
  | nil => intro updated err calls; simp [toggleAllGo]
  | cons t rest ih =>
    intro updated err calls
    by_cases hct : t.completed
    · rw [toggleAllGo]
      simp only [hct, Bool.not_true, Bool.or_false, Bool.false_eq_true, if_false]
      rw [ih]
      simp [List.filter_cons, hct]
    · have hct' : t.completed = false := by simpa using hct
      rw [toggleAllGo]
      simp only [hct', Bool.not_false, Bool.or_true, if_true, Bool.false_eq_true,
        if_false, List.nil_append]
      by_cases ho : ok t.id
      · simp only [ho, if_true]
        rw [ih]
        simp [List.filter_cons, hct', List.append_assoc]
      · have ho' : ok t.id = false := by simpa using ho
        simp only [ho', Bool.false_eq_true, if_false]
        rw [ih]
        simp [List.filter_cons, hct', List.append_assoc]

end TodoApp

namespace TodoApp

/-- C3: bulk toggle direction. The direction is fixed by the `allCompleted`
value computed from the state observed at invocation. If every item is
completed, a `completed:false` update is issued for every item and (with all
calls succeeding) every item's completed flag becomes false. Otherwise update
calls are issued exactly for the currently not-completed items (regardless of
outcomes), and with all calls succeeding those items become completed while
already-completed items are left untouched. -/
theorem spec_c3_toggle_direction (s : AppState) (ok : Nat → Bool)
    (hok : ∀ t ∈ s.todosFromServer, ok t.id = true) :
    ((((s.todosFromServer.filter (fun t => t.completed)).length
        == s.todosFromServer.length) = true) →
      (handleToggleAll s ok).state.todosFromServer
        = s.todosFromServer.map (fun todo => { todo with completed := false })
      ∧ (handleToggleAll s ok).calls
        = s.todosFromServer.map (fun t => RemoteCall.patch t.id ⟨some false, none⟩))
    ∧ ((((s.todosFromServer.filter (fun t => t.completed)).length
        == s.todosFromServer.length) = false) →
      (handleToggleAll s ok).state.todosFromServer
        = s.todosFromServer.map
            (fun t => if t.completed then t else { t with completed := true })
      ∧ (handleToggleAll s ok).calls
        = (s.todosFromServer.filter (fun t => !t.completed)).map
            (fun t => RemoteCall.patch t.id ⟨some true, none⟩)) := by
  constructor
  · intro hall
    have hlen : (s.todosFromServer.filter (fun t => t.completed)).length
        = s.todosFromServer.length := beq_iff_eq.mp hall
    have hcomp : ∀ t ∈ s.todosFromServer, t.completed = true :=
      List.filter_length_eq_length.mp hlen
    constructor
    · show (toggleAllGo ((s.todosFromServer.filter (fun t => t.completed)).length
          == s.todosFromServer.length) ok s.todosFromServer s.todosFromServer
          s.errorMessage []).1 = _
      rw [hall, toggleAllGo_true_updated ok s.todosFromServer hok]
      cases s.todosFromServer <;> simp
    · show (toggleAllGo ((s.todosFromServer.filter (fun t => t.completed)).length
          == s.todosFromServer.length) ok s.todosFromServer s.todosFromServer
          s.errorMessage []).2.2 = _
      rw [hall, toggleAllGo_true_calls ok s.todosFromServer hcomp]
      simp
  · intro hmixed
    have hany : s.todosFromServer.any (fun t => !t.completed) = true := by
      by_contra hcontra
      have h' : s.todosFromServer.any (fun t => !t.completed) = false := by
        simpa using hcontra
      have hall : ∀ t ∈ s.todosFromServer, t.completed = true := by
        intro t ht
        have := List.any_eq_false.mp h' t ht
        simpa using this
      have hlen : (s.todosFromServer.filter (fun t => t.completed)).length
          = s.todosFromServer.length := by
        rw [List.filter_eq_self.mpr hall]
      rw [hlen] at hmixed
      simp at hmixed
    constructor
    · show (toggleAllGo ((s.todosFromServer.filter (fun t => t.completed)).length
          == s.todosFromServer.length) ok s.todosFromServer s.todosFromServer
          s.errorMessage []).1 = _
      rw [hmixed, toggleAllGo_false_updated ok s.todosFromServer hok, hany]
      simp only [if_true]
      apply List.map_congr_left
      intro x _
      obtain ⟨i, ti, c⟩ := x
      cases c <;> rfl
    · show (toggleAllGo ((s.todosFromServer.filter (fun t => t.completed)).length
          == s.todosFromServer.length) ok s.todosFromServer s.todosFromServer
          s.errorMessage []).2.2 = _
      rw [hmixed, toggleAllGo_false_calls ok s.todosFromServer]
      simp

/-- C3 witness: a concrete bulk toggle over an all-completed two-item list
with every call succeeding; both items end up not-completed and one
`completed:false` update is issued per item. -/
theorem spec_c3_witness :
    (∀ t ∈ ([⟨1, "a", true⟩, ⟨2, "b", true⟩] : List Todo),
      (fun _ : Nat => true) t.id = true)
    ∧ ((handleToggleAll ⟨[⟨1, "a", true⟩, ⟨2, "b", true⟩], "", none, false, none⟩
          (fun _ => true)).state.todosFromServer
        = ([⟨1, "a", true⟩, ⟨2, "b", true⟩] : List Todo).map
            (fun todo => { todo with completed := false })
      ∧ (handleToggleAll ⟨[⟨1, "a", true⟩, ⟨2, "b", true⟩], "", none, false, none⟩
          (fun _ => true)).calls
        = ([⟨1, "a", true⟩, ⟨2, "b", true⟩] : List Todo).map
            (fun t => RemoteCall.patch t.id ⟨some false, none⟩)) :=
  ⟨by decide,
    (spec_c3_toggle_direction
        ⟨[⟨1, "a", true⟩, ⟨2, "b", true⟩], "", none, false, none⟩
        (fun _ => true) (by decide)).1 (by decide)⟩

/-- C2 (code bug evidence): on the mixed list `[(1, active), (2, active)]`
where the call for id 1 fails and the call for id 2 succeeds, the settled
Todo Collection State has item 1 with `completed = true` even though its own
update call failed — each successful call's reconciliation rewrites every
item of the working copy, not only its own item. -/
theorem spec_c2_failed_toggle_item_still_flipped :
    ((fun n : Nat => n == 2) 1 = false)
    ∧ (handleToggleAll ⟨[⟨1, "a", false⟩, ⟨2, "b", false⟩], "", none, false, none⟩
          (fun n => n == 2)).state.todosFromServer
        = [⟨1, "a", true⟩, ⟨2, "b", true⟩] := by decide

/-- C4 (code bug evidence): when an update call issued by bulk toggle fails,
the code sets the delete-category message `Unable to delete a todo`, not the
update-category message the spec states. -/
theorem spec_c4_toggle_failure_sets_delete_message :
    (handleToggleAll ⟨[⟨1, "a", false⟩], "", none, false, none⟩
        (fun _ => false)).state.errorMessage = some "Unable to delete a todo"
    ∧ ("Unable to delete a todo" : String) ≠ "Unable to update a todo" := by decide

end TodoApp

namespace TodoApp

/-- C5: create. The submitted title is trimmed; if the trimmed title is empty
the Error Slot gets the title-required message and no remote call is issued;
otherwise exactly one create call with the trimmed title is issued, and on
success the server-returned todo is appended to the end of the list (error
slot left clear), while on failure the Error Slot gets the add-failure
message and the list is unchanged. -/
theorem spec_c5_create (s : AppState) (result : Except Unit Todo) :
    ((jsTrim s.inputValue).length = 0 →
      (handlePostTodo s result).state.errorMessage = some "Title should not be empty"
      ∧ (handlePostTodo s result).calls = []
      ∧ (handlePostTodo s result).state.todosFromServer = s.todosFromServer)
    ∧ ((jsTrim s.inputValue).length ≠ 0 →
      (handlePostTodo s result).calls = [.post (jsTrim s.inputValue)]
      ∧ (∀ newPost, result = .ok newPost →
          (handlePostTodo s result).state.todosFromServer
            = s.todosFromServer ++ [newPost]
          ∧ (handlePostTodo s result).state.errorMessage = none)
      ∧ (result = .error () →
          (handlePostTodo s result).state.errorMessage = some "Unable to add a todo"
          ∧ (handlePostTodo s result).state.todosFromServer = s.todosFromServer)) := by
  constructor
  · intro h
    refine ⟨?_, ?_, ?_⟩ <;> simp [handlePostTodo, h]
  · intro h
    refine ⟨?_, ?_, ?_⟩
    · simp [handlePostTodo, h]
    · intro newPost hres
      subst hres
      refine ⟨?_, ?_⟩ <;> simp [handlePostTodo, h]
    · intro hres
      subst hres
      refine ⟨?_, ?_⟩ <;> simp [handlePostTodo, h]

/-- C5 witness: a concrete successful create with title needing trimming. -/
theorem spec_c5_witness :
    ((jsTrim " buy milk ").length ≠ 0)
    ∧ (handlePostTodo ⟨[], " buy milk ", none, false, none⟩
          (.ok ⟨1, "buy milk", false⟩)).state.todosFromServer
        = ([] : List Todo) ++ [⟨1, "buy milk", false⟩] :=
  ⟨by decide,
    (((spec_c5_create ⟨[], " buy milk ", none, false, none⟩
          (.ok ⟨1, "buy milk", false⟩)).2 (by decide)).2.1
        ⟨1, "buy milk", false⟩ rfl).1⟩

/-- C6: update-one failure handling. When the remote update call rejects with
an `Error` (the shape of every transport failure), the Error Slot gets the
update-failure message, the Todo Collection State is unchanged, and the
failure is re-raised to the caller; no other reconciliation operation ever
lets a failure escape the operation boundary. (The rejection-with-a-non-
`Error`-value path is the separate implicit claim C10.) -/
theorem spec_c6_update_failure_propagates :
    (∀ (s : AppState) (id : Nat) (data : ChangeData),
      (handleChangeTodo s id data .failError).state.errorMessage
          = some "Unable to update a todo"
      ∧ (handleChangeTodo s id data .failError).state.todosFromServer
          = s.todosFromServer
      ∧ (handleChangeTodo s id data .failError).raised = true)
    ∧ (∀ (s : AppState) (r : Except Unit (List Todo)), (loadTodos s r).raised = false)
    ∧ (∀ (s : AppState) (id : Nat) (ok : Bool), (handleDeleteTodo s id ok).raised = false)
    ∧ (∀ (s : AppState) (r : Except Unit Todo), (handlePostTodo s r).raised = false)
    ∧ (∀ (s : AppState) (ok : Nat → Bool), (handleDeleteAll s ok).raised = false)
    ∧ (∀ (s : AppState) (ok : Nat → Bool), (handleToggleAll s ok).raised = false) := by
  refine ⟨fun s id data => ⟨rfl, rfl, rfl⟩, fun s r => ?_, fun s id ok => rfl,
    fun s r => ?_, fun s ok => rfl, fun s ok => rfl⟩
  · cases r <;> rfl
  · simp only [handlePostTodo]
    split <;> rfl

/-- C10: if the remote update call inside update-one rejects with a value
that is not an `Error` instance, the operation completes silently: the whole
state (in particular the Error Slot and the Todo Collection State) is
unchanged and nothing is re-raised to the caller. -/
theorem spec_c10_non_error_rejection_silent (s : AppState) (id : Nat)
    (data : ChangeData) :
    (handleChangeTodo s id data .failNonError).state = s
    ∧ (handleChangeTodo s id data .failNonError).state.errorMessage = s.errorMessage
    ∧ (handleChangeTodo s id data .failNonError).state.todosFromServer
        = s.todosFromServer
    ∧ (handleChangeTodo s id data .failNonError).raised = false :=
  ⟨rfl, rfl, rfl, rfl⟩

/-- C7 counterexample: the whitespace-only edit text `"   "` trims to the
empty string, yet the edit-commit handler does not redirect it to delete-one
— it issues an update (`changeTodo`), whose remote call is a patch with the
trimmed (empty) title. -/
theorem spec_c7_counterexample :
    jsTrim "   " = ""
    ∧ handleTitleChange 1 "buy milk" "   " = EditAction.changeTitle 1 "   "
    ∧ handleTitleChange 1 "buy milk" "   " ≠ EditAction.deleteItem 1
    ∧ (handleChangeTodo ⟨[⟨1, "buy milk", true⟩], "", none, false, none⟩ 1
        (.ofString "   ") .ok).calls = [.patch 1 ⟨none, some ""⟩] := by decide

/-- C7 amended: the edited title is trimmed before being sent to update
(the patch payload carries the trimmed text), but only an input whose text
is literally the empty string is redirected to delete-one; any other input
differing from the current title — including whitespace-only text that trims
to empty — is sent as an update. -/
theorem spec_c7_empty_edit_redirect (id : Nat) (title input : String)
    (s : AppState) (out : PatchOutcome) :
    (input = "" → handleTitleChange id title input = .deleteItem id)
    ∧ (input ≠ "" → input ≠ title →
        handleTitleChange id title input = .changeTitle id input)
    ∧ (handleChangeTodo s id (.ofString input) out).calls
        = [.patch id ⟨none, some (jsTrim input)⟩] := by
  refine ⟨?_, ?_, ?_⟩
  · intro h
    simp [handleTitleChange, h]
  · intro h1 h2
    simp [handleTitleChange, h1, h2]
  · cases out <;> rfl

/-- C7 witness: the literally-empty edit is redirected to delete, and a
concrete update call carries the trimmed title. -/
theorem spec_c7_witness :
    (("" : String) = "" ∧ handleTitleChange 5 "x" "" = EditAction.deleteItem 5)
    ∧ (handleChangeTodo ⟨[], "", none, false, none⟩ 5
        (.ofString " a ") .ok).calls = [.patch 5 ⟨none, some (jsTrim " a ")⟩] :=
  ⟨⟨rfl, (spec_c7_empty_edit_redirect 5 "x" "" ⟨[], "", none, false, none⟩ .ok).1 rfl⟩,
    (spec_c7_empty_edit_redirect 5 "x" " a " ⟨[], "", none, false, none⟩ .ok).2.2⟩

/-- C8 counterexample: bulk toggle issues remote calls without clearing the
Error Slot first — a pre-existing load-failure message survives a fully
successful bulk toggle. -/
theorem spec_c8_counterexample :
    (handleToggleAll ⟨[⟨1, "a", true⟩], "", none, false,
        some "Unable to load todos"⟩ (fun _ => true)).calls ≠ []
    ∧ (handleToggleAll ⟨[⟨1, "a", true⟩], "", none, false,
        some "Unable to load todos"⟩ (fun _ => true)).state.errorMessage
      = some "Unable to load todos" := by decide

/-- C8 amended: create, delete-one and bulk delete reset the Error Slot at
the start of each attempt (their final error value is independent of the
pre-existing one), but load, update-one and bulk toggle never clear it — on
a fully successful run of those three, a pre-existing message survives. -/
theorem spec_c8_error_slot_clearing :
    (∀ (s : AppState) (e : Option String) (id : Nat) (ok : Bool),
      (handleDeleteTodo { s with errorMessage := e } id ok).state.errorMessage
        = (handleDeleteTodo s id ok).state.errorMessage)
    ∧ (∀ (s : AppState) (e : Option String) (r : Except Unit Todo),
      (handlePostTodo { s with errorMessage := e } r).state.errorMessage
        = (handlePostTodo s r).state.errorMessage)
    ∧ (∀ (s : AppState) (e : Option String) (ok : Nat → Bool),
      (handleDeleteAll { s with errorMessage := e } ok).state.errorMessage
        = (handleDeleteAll s ok).state.errorMessage)
    ∧ (∀ (s : AppState) (todos : List Todo),
      (loadTodos s (.ok todos)).state.errorMessage = s.errorMessage)
    ∧ (∀ (s : AppState) (id : Nat) (data : ChangeData),
      (handleChangeTodo s id data .ok).state.errorMessage = s.errorMessage)
    ∧ (∀ (s : AppState) (ok : Nat → Bool),
      (∀ t ∈ s.todosFromServer, ok t.id = true) →
      (handleToggleAll s ok).state.errorMessage = s.errorMessage) := by
  refine ⟨fun s e id ok => ?_, fun s e r => ?_, fun s e ok => ?_,
    fun s todos => rfl, fun s id data => rfl, fun s ok hok => ?_⟩
  · cases ok <;> rfl
  · cases r <;> by_cases h : (jsTrim s.inputValue).length = 0 <;>
      simp [handlePostTodo, h]
  · have h1 : (handleDeleteAll { s with errorMessage := e } ok).state.errorMessage
        = if s.todosFromServer.any (fun t => t.completed && !ok t.id)
          then some "Unable to delete a todo" else none := by
      show (deleteAllGo ok s.todosFromServer s.todosFromServer none []).2.1 = _
      rw [deleteAllGo_err]
    have h2 : (handleDeleteAll s ok).state.errorMessage
        = if s.todosFromServer.any (fun t => t.completed && !ok t.id)
          then some "Unable to delete a todo" else none := by
      show (deleteAllGo ok s.todosFromServer s.todosFromServer none []).2.1 = _
      rw [deleteAllGo_err]
    rw [h1, h2]
  · have herr : (handleToggleAll s ok).state.errorMessage
        = if s.todosFromServer.any (fun t =>
            (((s.todosFromServer.filter (fun u => u.completed)).length
                == s.todosFromServer.length) || !t.completed) && !ok t.id)
          then some "Unable to delete a todo" else s.errorMessage := by
      show (toggleAllGo ((s.todosFromServer.filter (fun u => u.completed)).length
          == s.todosFromServer.length) ok s.todosFromServer s.todosFromServer
          s.errorMessage []).2.1 = _
      rw [toggleAllGo_err]
    rw [herr]
    have hany : s.todosFromServer.any (fun t =>
        (((s.todosFromServer.filter (fun u => u.completed)).length
            == s.todosFromServer.length) || !t.completed) && !ok t.id) = false := by
      apply List.any_eq_false.mpr
      intro t ht
      simp [hok t ht]
    rw [hany]
    simp

/-- C8 witness: a concrete fully-successful bulk toggle that leaves a
pre-existing load-failure message in the Error Slot. -/
theorem spec_c8_witness :
    (∀ t ∈ ([⟨1, "a", true⟩] : List Todo), (fun _ : Nat => true) t.id = true)
    ∧ (handleToggleAll ⟨[⟨1, "a", true⟩], "", none, false,
        some "Unable to load todos"⟩ (fun _ => true)).state.errorMessage
      = some "Unable to load todos" :=
  ⟨by decide,
    spec_c8_error_slot_clearing.2.2.2.2.2
      ⟨[⟨1, "a", true⟩], "", none, false, some "Unable to load todos"⟩
      (fun _ => true) (by decide)⟩

end TodoApp
